import Mathlib

/-!
Verification of the HTML-to-rich-text formatting core of the
rr-contentful-migration library (src/helpers/formatters.ts) and of the
retrying fetch helper (src/helpers/dataFetcher.ts), as a shallow embedding
in Lean 4.  JavaScript dynamic values are embedded as an inductive `JSValue`;
the parsed HTML element tree that cheerio exposes is embedded as `HtmlNode`;
the Contentful rich-text node types are embedded as `RTNode` with string
node-type discriminators matching the constants of
`@contentful/rich-text-types`.
-/

namespace RRMigration

/-- Node data payloads occurring in the converter output: the empty data
mapping, a hyperlink `uri`, or the embedded-asset `target.sys` reference
(whose `type` is always "Link" and `linkType` always "Asset" in the source,
so only the `id` varies). -/
inductive NodeData where
  | empty
  | uri (u : String)
  | assetTarget (id : String)


/-- A Contentful rich-text node: either an element node with a string
node-type discriminator, a data payload and child content, or a text leaf
carrying a value, a list of marks and a data payload. -/
inductive RTNode where
  | node (nodeType : String) (data : NodeData) (content : List RTNode)
  | text (value : String) (marks : List String) (data : NodeData)


/-- The rich-text document root (`Document` of rich-text-types): nodeType
"document", a data payload and top-level block content. -/
structure RichTextDoc where
  nodeType : String
  data : NodeData
  content : List RTNode


/-- A node of the parsed HTML tree exposed by the HTML parsing library:
a raw text node, or an element with a tag name, attributes and direct
child nodes. -/
inductive HtmlNode where
  | text (s : String)
  | elem (tag : String) (attrs : List (String × String)) (children : List HtmlNode)


/-- A JavaScript dynamic value, as far as `localizeField` can observe it:
strings, numbers (the integral ones the claims use), booleans, null,
undefined, plain objects (property lists) and already-structured rich-text
documents. -/
inductive JSValue where
  | str (s : String)
  | num (n : Int)
  | bool (b : Bool)
  | null
  | undefined
  | obj (props : List (String × JSValue))
  | doc (d : RichTextDoc)


/-- The `LocalizedContent` record of the source: a mapping with exactly the
single locale key "en-US".  The structure type itself enforces the
one-locale-key invariant. -/
structure LocalizedContent where
  enUS : JSValue


/-! ### The HTML tag-pattern test

`/<[^>]+>/g.test(field)` of the source: the string contains a '<' followed
by at least one character other than '>' and then a '>'.  `tagScan` is a
three-state scan over the characters: state 0 seeks a '<', state 1 is the
position right after a '<', state 2 has seen at least one non-'>' tag-body
character. -/

def tagScan : Nat → List Char → Bool
  | _, [] => false
  | 0, c :: cs => if c = '<' then tagScan 1 cs else tagScan 0 cs
  | 1, c :: cs => if c = '>' then tagScan 0 cs else tagScan 2 cs
  | _, c :: cs => if c = '>' then true else tagScan 2 cs

/-- Whether the string matches the HTML tag pattern `<[^>]+>` somewhere. -/
def containsHtmlTag (s : String) : Bool := tagScan 0 s.data

/-! ### The converter (formatters.ts) -/

/-- `stripTags` of the source: remove every newline and tab character
(`html.replace(/(\n|\t)/g, "")`). -/
def stripTags (html : String) : String :=
  String.mk (html.data.filter (fun c => ¬ (c = '\n' ∨ c = '\t')))

/-- `createTextNode(text, marks)` of the source. -/
def createTextNode (text : String) (marks : List String) : RTNode :=
  RTNode.text text marks NodeData.empty

/-- The JavaScript `String.prototype.toLowerCase()` over the tag-name
alphabet: lowercase every character. -/
def jsToLower (s : String) : String := String.mk (s.data.map Char.toLower)

/-- The JavaScript `String.prototype.trim()`: drop whitespace characters
from both ends of the string. -/
def jsTrim (s : String) : String :=
  String.mk
    (((s.data.dropWhile Char.isWhitespace).reverse.dropWhile Char.isWhitespace).reverse)

/-- `processTextContent($, element)` of the source, over the direct child
nodes the `$(element).contents()` call iterates: each direct text-node
child is trimmed and pushed as a text node with empty marks when the
trimmed value is non-empty; element children are skipped (the
`node.type === "text"` check). -/
def processTextContent : List HtmlNode → List RTNode
  | [] => []
  | HtmlNode.text s :: rest =>
      let t := jsTrim s
      if t ≠ "" then createTextNode t [] :: processTextContent rest
      else processTextContent rest
  | HtmlNode.elem _ _ _ :: rest => processTextContent rest

/-- The direct child nodes of an element (empty for a text node). -/
def childrenOf : HtmlNode → List HtmlNode
  | HtmlNode.text _ => []
  | HtmlNode.elem _ _ cs => cs

/-- Attribute lookup, `$(element).attr(name)` of the source. -/
def attrOf (el : HtmlNode) (name : String) : Option String :=
  match el with
  | HtmlNode.text _ => none
  | HtmlNode.elem _ attrs _ =>
      (attrs.find? (fun p => p.fst = name)).map Prod.snd

/-- `createParagraphNode` of the source. -/
def createParagraphNode (el : HtmlNode) : RTNode :=
  RTNode.node "paragraph" NodeData.empty (processTextContent (childrenOf el))

/-- `createHeadingNode` of the source. -/
def createHeadingNode (el : HtmlNode) (headingType : String) : RTNode :=
  RTNode.node headingType NodeData.empty (processTextContent (childrenOf el))

/-- `createListItemNode` of the source: a list-item wrapping exactly one
paragraph built from the element via `processTextContent`. -/
def createListItemNode (el : HtmlNode) : RTNode :=
  RTNode.node "list-item" NodeData.empty
    [RTNode.node "paragraph" NodeData.empty (processTextContent (childrenOf el))]

/-- Whether a child node is an `li` element (what the `children("li")`
selector of the source matches among direct children; tag-name matching is
case-insensitive in HTML mode). -/
def isLiElem : HtmlNode → Bool
  | HtmlNode.elem tag _ _ => jsToLower tag = "li"
  | HtmlNode.text _ => false

/-- `createListNode` of the source: the direct `li` element children are
each converted via `createListItemNode` and pushed in order.  (The
`if (listItemNode)` guard of the source is vacuous: `createListItemNode`
always returns a node.) -/
def createListNode (el : HtmlNode) (listType : String) : RTNode :=
  RTNode.node listType NodeData.empty
    (((childrenOf el).filter isLiElem).map createListItemNode)

/-- `createBlockquoteNode` of the source. -/
def createBlockquoteNode (el : HtmlNode) : RTNode :=
  RTNode.node "blockquote" NodeData.empty
    [RTNode.node "paragraph" NodeData.empty (processTextContent (childrenOf el))]

/-- `createHyperlinkNode` of the source: `data.uri` is the `href`
attribute, defaulting to the empty string. -/
def createHyperlinkNode (el : HtmlNode) : RTNode :=
  RTNode.node "hyperlink" (NodeData.uri ((attrOf el "href").getD ""))
    (processTextContent (childrenOf el))

/-- `createHyperlinkInBlockNode` of the source: a paragraph holding the
single hyperlink node. -/
def createHyperlinkInBlockNode (el : HtmlNode) : RTNode :=
  RTNode.node "paragraph" NodeData.empty [createHyperlinkNode el]

/-- `createEmbeddedAssetNode` of the source: the asset id is the `src`
attribute, defaulting to the empty string. -/
def createEmbeddedAssetNode (el : HtmlNode) : RTNode :=
  RTNode.node "embedded-asset-block"
    (NodeData.assetTarget ((attrOf el "src").getD "")) []

/-- The tag names the dispatch switch of `processElement` recognizes. -/
def recognizedTags : List String :=
  ["p", "h1", "h2", "h3", "h4", "h5", "h6", "ul", "ol", "li",
   "blockquote", "hr", "a", "img"]

/-- `processElement($, element)` of the source: lowercase the tag name and
dispatch.  Every switch branch returns a node (the declared `| null` is
never produced); the function is only ever applied to element children, so
a text node yields `none`. -/
def processElement (el : HtmlNode) : Option RTNode :=
  match el with
  | HtmlNode.text _ => none
  | HtmlNode.elem tag _ _ =>
      let tagName := jsToLower tag
      some <|
        if tagName = "p" then createParagraphNode el
        else if tagName = "h1" then createHeadingNode el "heading-1"
        else if tagName = "h2" then createHeadingNode el "heading-2"
        else if tagName = "h3" then createHeadingNode el "heading-3"
        else if tagName = "h4" then createHeadingNode el "heading-4"
        else if tagName = "h5" then createHeadingNode el "heading-5"
        else if tagName = "h6" then createHeadingNode el "heading-6"
        else if tagName = "ul" then createListNode el "unordered-list"
        else if tagName = "ol" then createListNode el "ordered-list"
        else if tagName = "li" then createListItemNode el
        else if tagName = "blockquote" then createBlockquoteNode el
        else if tagName = "hr" then RTNode.node "hr" NodeData.empty []
        else if tagName = "a" then createHyperlinkInBlockNode el
        else if tagName = "img" then createEmbeddedAssetNode el
        else createParagraphNode el

/-- Whether a parsed node is an element (what `$("body").children()`
yields: element children only, text children of the body are skipped). -/
def isElem : HtmlNode → Bool
  | HtmlNode.elem _ _ _ => true
  | HtmlNode.text _ => false

/-- The top-level walk of `htmlToRichText`: for each element child of the
body, `processElement` runs and the produced node is pushed
(`if (node) ... push(node)`). -/
def walkBlocks (bodyNodes : List HtmlNode) : List RTNode :=
  (bodyNodes.filter isElem).filterMap processElement

/-! ### The HTML parse step

`cheerio.load` is an external collaborator of the core (spec section 6: an
HTML parsing library that loads an HTML string and returns a queryable
element tree rooted at a body-equivalent container, exposing tag names,
attributes and direct child nodes, and never raising).  It is modelled here
by a small forgiving tokenizer and stack-free tree builder producing the
body-children list.  The theorems quantified over elements do not depend on
this model; only the concrete end-to-end evaluations of `htmlToRichText`
run through it. -/

/-- An HTML token: a text run, an opening tag with attributes (and whether
it was self-closing), or a closing tag. -/
inductive HTok where
  | textTok (s : String)
  | openTok (tag : String) (attrs : List (String × String)) (selfClose : Bool)
  | closeTok (tag : String)

/-- Characters allowed in tag and attribute names. -/
def isNameChar (c : Char) : Bool := c.isAlphanum || c = '-' || c = '_'

/-- Read one attribute value after an `=` sign: quoted with `"` or a
single quote, or an unquoted run up to whitespace, `/` or `>`. -/
def readAttrValue (cs : List Char) : String × List Char :=
  match cs with
  | '"' :: rest =>
      (String.mk (rest.takeWhile (fun c => c ≠ '"')),
       (rest.dropWhile (fun c => c ≠ '"')).drop 1)
  | '\'' :: rest =>
      (String.mk (rest.takeWhile (fun c => c ≠ '\'')),
       (rest.dropWhile (fun c => c ≠ '\'')).drop 1)
  | _ =>
      (String.mk (cs.takeWhile (fun c => ¬ (c.isWhitespace ∨ c = '>' ∨ c = '/'))),
       cs.dropWhile (fun c => ¬ (c.isWhitespace ∨ c = '>' ∨ c = '/')))

/-- Read the attribute list of an opening tag, up to `>` or `/>`.
Returns the attributes, whether the tag is self-closing, and the rest of
the input after the `>`. -/
def readAttrs : Nat → List Char → List (String × String) × Bool × List Char
  | 0, cs => ([], false, cs)
  | _ + 1, [] => ([], false, [])
  | fuel + 1, c :: cs =>
      if c.isWhitespace then readAttrs fuel cs
      else if c = '>' then ([], false, cs)
      else if c = '/' then
        match cs with
        | '>' :: rest => ([], true, rest)
        | _ => readAttrs fuel cs
      else if isNameChar c then
        let name := String.mk ((c :: cs).takeWhile isNameChar)
        let after := (c :: cs).dropWhile isNameChar
        match after with
        | '=' :: rest =>
            let (v, rest2) := readAttrValue rest
            let (attrs, sc, rest3) := readAttrs fuel rest2
            ((name, v) :: attrs, sc, rest3)
        | _ =>
            let (attrs, sc, rest2) := readAttrs fuel after
            ((name, "") :: attrs, sc, rest2)
      else readAttrs fuel cs

/-- Tokenize an HTML character stream into tags and text runs.  Tag names
are lowercased as HTML parsers do. -/
def tokenizeHtml : Nat → List Char → List HTok
  | 0, _ => []
  | _ + 1, [] => []
  | fuel + 1, '<' :: cs =>
      match cs with
      | '/' :: rest =>
          let name := String.mk (rest.takeWhile isNameChar)
          let after := (rest.dropWhile isNameChar).dropWhile (fun c => c ≠ '>')
          HTok.closeTok (jsToLower name) :: tokenizeHtml fuel (after.drop 1)
      | c :: rest =>
          if c.isAlpha then
            let name := String.mk ((c :: rest).takeWhile isNameChar)
            let after := (c :: rest).dropWhile isNameChar
            let (attrs, sc, rest2) := readAttrs (after.length + 1) after
            HTok.openTok (jsToLower name) attrs sc :: tokenizeHtml fuel rest2
          else
            let txt := String.mk ('<' :: (c :: rest).takeWhile (fun d => d ≠ '<'))
            HTok.textTok txt ::
              tokenizeHtml fuel ((c :: rest).dropWhile (fun d => d ≠ '<'))
      | [] => [HTok.textTok "<"]
  | fuel + 1, c :: cs =>
      let txt := String.mk ((c :: cs).takeWhile (fun d => d ≠ '<'))
      HTok.textTok txt :: tokenizeHtml fuel ((c :: cs).dropWhile (fun d => d ≠ '<'))

/-- HTML void elements: they never take children or a closing tag. -/
def isVoidTag (t : String) : Bool :=
  t = "hr" || t = "img" || t = "br" || t = "meta" || t = "input" || t = "link"

/-- Build the node forest from the token stream.  `stopTag` is the tag of
the enclosing open element whose closing tag ends the current forest; a
stray closing tag is ignored (forgiving parse). -/
def parseNodesAux : Nat → List HTok → Option String → List HtmlNode × List HTok
  | 0, toks, _ => ([], toks)
  | _ + 1, [], _ => ([], [])
  | fuel + 1, HTok.textTok s :: rest, stopTag =>
      let (ns, r) := parseNodesAux fuel rest stopTag
      (HtmlNode.text s :: ns, r)
  | fuel + 1, HTok.openTok t attrs sc :: rest, stopTag =>
      if sc || isVoidTag t then
        let (ns, r) := parseNodesAux fuel rest stopTag
        (HtmlNode.elem t attrs [] :: ns, r)
      else
        let (cs, rest2) := parseNodesAux fuel rest (some t)
        let (ns, r) := parseNodesAux fuel rest2 stopTag
        (HtmlNode.elem t attrs cs :: ns, r)
  | fuel + 1, HTok.closeTok t :: rest, stopTag =>
      if stopTag = some t then ([], rest)
      else parseNodesAux fuel rest stopTag

/-- The model of `cheerio.load`: the list of child nodes of the
body-equivalent container. -/
def parseHtml (s : String) : List HtmlNode :=
  let toks := tokenizeHtml (s.length + 1) s.data
  (parseNodesAux (toks.length + 1) toks none).fst

/-- The empty paragraph block the empty-document guard pushes. -/
def emptyParagraph : RTNode := RTNode.node "paragraph" NodeData.empty []

/-- `htmlToRichText(html)` of the source: strip newlines and tabs, parse,
walk the element children of the body appending one block per element, and
if no block was produced push a single empty paragraph. -/
def htmlToRichText (html : String) : RichTextDoc :=
  let cleanedHtml := stripTags html
  let blocks := walkBlocks (parseHtml cleanedHtml)
  { nodeType := "document"
    data := NodeData.empty
    content := if blocks.length = 0 then [emptyParagraph] else blocks }

/-! ### The field localizer (formatters.ts, `localizeField`) -/

/-- JavaScript truthiness of an embedded value: the empty string, zero,
`false`, `null` and `undefined` are falsy; every object is truthy. -/
def jsTruthy : JSValue → Bool
  | JSValue.str s => s ≠ ""
  | JSValue.num n => n ≠ 0
  | JSValue.bool b => b
  | JSValue.null => false
  | JSValue.undefined => false
  | JSValue.obj _ => true
  | JSValue.doc _ => true

/-- JavaScript `a || b`. -/
def jsOr (a b : JSValue) : JSValue := if jsTruthy a then a else b

/-- `field?.rendered`: the `rendered` property of an object, `undefined`
for a missing property and for every non-object (optional chaining on
`null`/`undefined`, absent property on primitives and documents). -/
def getRendered : JSValue → JSValue
  | JSValue.obj props =>
      match props.find? (fun p => p.fst = "rendered") with
      | some p => p.snd
      | none => JSValue.undefined
  | _ => JSValue.undefined

/-- Whether the value is a string matching the HTML tag pattern
(`typeof v === "string" && /<[^>]+>/g.test(v)`). -/
def isHtmlStr : JSValue → Bool
  | JSValue.str s => containsHtmlTag s
  | _ => false

/-- The string payload of a string value (only ever read when the value is
known to be a string). -/
def strOf : JSValue → String
  | JSValue.str s => s
  | _ => ""

/-- The common return of `localizeField` (lines 37-42 of formatters.ts):
`String(field)` for strings and numbers, otherwise the JavaScript
expression `field?.rendered || field`. -/
def localizeFallback (field : JSValue) : JSValue :=
  match field with
  | JSValue.str s => JSValue.str s
  | JSValue.num n => JSValue.str (toString n)
  | _ => jsOr (getRendered field) field

/-- `localizeField(key, field)` of the source: when the key is not
"title", an HTML-bearing string field (or an HTML-bearing string
`field.rendered`) is routed through `htmlToRichText`; in every other case
the common return applies. -/
def localizeField (key : String) (field : JSValue) : LocalizedContent :=
  if key ≠ "title" then
    if isHtmlStr field then
      { enUS := JSValue.doc (htmlToRichText (strOf field)) }
    else if isHtmlStr (getRendered field) then
      { enUS := JSValue.doc (htmlToRichText (strOf (getRendered field))) }
    else { enUS := localizeFallback field }
  else { enUS := localizeFallback field }

/-- `formatEntry(content)` of the source: localize every field of the
record, preserving keys and order. -/
def formatEntry (content : List (String × JSValue)) :
    List (String × LocalizedContent) :=
  content.map (fun p => (p.fst, localizeField p.fst p.snd))

/-! ### The retrying fetch helper (dataFetcher.ts)

The network is embedded as an oracle mapping each attempt index to its
outcome: an HTTP response (status and body text) or a thrown error
(network failure, abort, or the racing timeout).  `JSON.parse` is an
external collaborator and is embedded as a caller-supplied partial parse
function.  Each iteration of the `while (attempt < retries)` loop becomes
one step of `dfLoop`; the backoff delays the 503 branch sleeps are
collected in a trace list (milliseconds), in order. -/

/-- The outcome `fetchWithTimeout` delivers on one attempt. -/
inductive FetchOutcome where
  | resp (status : Nat) (body : String)
  | err (msg : String)

/-- `response.ok`: status in the range 200-299. -/
def isOkStatus (s : Nat) : Bool := 200 ≤ s && s < 300

/-- The message of the error thrown on a non-ok, non-503 status
(line 37 of dataFetcher.ts). -/
def statusErrMsg (url : String) (status : Nat) : String :=
  "Failed to fetch from " ++ url ++ ", Status: " ++ toString status

/-- The message of the error rethrown when the last attempt failed
(line 63 of dataFetcher.ts). -/
def maxRetriesMsg (url : String) (lastErr : String) : String :=
  "Max retries reached for " ++ url ++ ". Last error: " ++ lastErr

/-- The message of the error thrown on a JSON parse failure
(line 46 of dataFetcher.ts); the parse collaborator is modelled without
its own message text. -/
def parseErrMsg : String := "Failed to parse JSON from response"

/-- One run of the `while (attempt < retries)` loop of `dataFetcher`,
from the given attempt index.  The first numeric argument is structural
gas bounding the number of remaining iterations; since every iteration
increments `attempt`, any gas at least `retries - attempt` (every use
below passes `retries`) makes the gas-out base case unreachable before
the loop condition fails, and the base case returns the same implicit
`undefined` as a failed loop condition.  The result is the returned value — an
`Except` whose error is the thrown message, with `Except.ok none` the
implicit `undefined` return when the loop condition fails — paired with
the trace of backoff delays slept, in milliseconds.

Faithful branch by branch: a thrown fetch error, a thrown non-503 status
error and a thrown parse error are all caught by the surrounding
`try/catch`, which rethrows `maxRetriesMsg` when `attempt === retries - 1`
and otherwise increments `attempt` and retries; a 503 sleeps
`2 ** attempt * 1000` milliseconds, increments `attempt` and continues; an
ok response returns the parsed JSON. -/
def dfLoop (fetchO : Nat → FetchOutcome) (parse : String → Option α)
    (url : String) (retries : Nat) :
    Nat → Nat → Except String (Option α) × List Nat
  | 0, _ => (Except.ok none, [])
  | gas + 1, attempt =>
    if attempt < retries then
      match fetchO attempt with
      | FetchOutcome.err msg =>
          if attempt = retries - 1 then
            (Except.error (maxRetriesMsg url msg), [])
          else dfLoop fetchO parse url retries gas (attempt + 1)
      | FetchOutcome.resp status body =>
          if isOkStatus status then
            match parse body with
            | some v => (Except.ok (some v), [])
            | none =>
                if attempt = retries - 1 then
                  (Except.error (maxRetriesMsg url parseErrMsg), [])
                else dfLoop fetchO parse url retries gas (attempt + 1)
          else if status = 503 then
            let backoffTime := 2 ^ attempt * 1000
            let r := dfLoop fetchO parse url retries gas (attempt + 1)
            (r.fst, backoffTime :: r.snd)
          else
            if attempt = retries - 1 then
              (Except.error (maxRetriesMsg url (statusErrMsg url status)), [])
            else dfLoop fetchO parse url retries gas (attempt + 1)
    else (Except.ok none, [])

/-- `dataFetcher(url, retries, timeout)` of the source, starting the loop
at attempt 0 with gas `retries` (each loop iteration increments `attempt`,
so `retries` iterations always suffice: the gas never runs out before the
`attempt < retries` condition fails).  The source defaults are retries 5
and timeout 10000 ms; the timeout only shapes which `FetchOutcome.err` the
oracle delivers. -/
def dataFetcher (fetchO : Nat → FetchOutcome) (parse : String → Option α)
    (url : String) (retries : Nat) : Except String (Option α) × List Nat :=
  dfLoop fetchO parse url retries retries 0

/-! ### Value-shape predicates used by the theorems -/

/-- Whether the value is a structured rich-text document. -/
def isDocVal : JSValue → Bool
  | JSValue.doc _ => true
  | _ => false

/-- `typeof v === "string"`. -/
def isStrVal : JSValue → Bool
  | JSValue.str _ => true
  | _ => false

/-- `typeof v === "number"`. -/
def isNumVal : JSValue → Bool
  | JSValue.num _ => true
  | _ => false

/-- Whether the value is an object exposing a `rendered` property. -/
def hasRendered : JSValue → Bool
  | JSValue.obj props => (props.find? (fun p => p.fst = "rendered")).isSome
  | _ => false

/-! ### Theorems -/

/-- C1: for every value `v`, `localizeField "title" v` never routes
through `htmlToRichText`: the result is always the common plain return
(`String(v)` for strings and numbers, `v.rendered || v` otherwise); in
particular a string value — HTML-bearing or not — comes back as that
plain string, an object with a string `rendered` comes back as that
string (or as the object itself when the string is empty), and the locale
value is a structured document only when `v` itself, or its `rendered`
property, already was one. -/
theorem title_field_never_rich_text :
    (∀ v : JSValue, localizeField "title" v = { enUS := localizeFallback v }) ∧
    (∀ s : String, localizeField "title" (JSValue.str s) = { enUS := JSValue.str s }) ∧
    (∀ props s, getRendered (JSValue.obj props) = JSValue.str s →
        localizeField "title" (JSValue.obj props)
          = { enUS := if s ≠ "" then JSValue.str s else JSValue.obj props }) ∧
    (∀ v : JSValue, isDocVal (localizeField "title" v).enUS = true →
        isDocVal v = true ∨ isDocVal (getRendered v) = true) := by
  have hfall : ∀ v : JSValue, localizeField "title" v = { enUS := localizeFallback v } := by
    intro v; simp [localizeField]
  refine ⟨hfall, ?_, ?_, ?_⟩
  · intro s; rw [hfall]; rfl
  · intro props s h
    rw [hfall]
    simp only [localizeFallback, jsOr, h, jsTruthy]
    by_cases hs : s = "" <;> simp [hs]
  · intro v h
    rw [hfall] at h
    cases v with
    | str s => simp [localizeFallback, isDocVal] at h
    | num n => simp [localizeFallback, isDocVal] at h
    | doc d => exact Or.inl rfl
    | bool b =>
        simp only [localizeFallback, jsOr, getRendered, jsTruthy] at h ⊢
        simp [isDocVal] at h
    | null =>
        simp only [localizeFallback, jsOr, getRendered, jsTruthy] at h ⊢
        simp [isDocVal] at h
    | undefined =>
        simp only [localizeFallback, jsOr, getRendered, jsTruthy] at h ⊢
        simp [isDocVal] at h
    | obj props =>
        simp only [localizeFallback, jsOr] at h
        by_cases ht : jsTruthy (getRendered (JSValue.obj props)) = true
        · rw [if_pos ht] at h; exact Or.inr h
        · rw [if_neg ht] at h; simp [isDocVal] at h

/-- C1 witness: at the concrete HTML-bearing string "<p>x</p>" under the
key "title" the locale value is that plain string, and at the object whose
`rendered` is the HTML-bearing string "<b>t</b>" the locale value is that
plain string as well. -/
theorem title_field_never_rich_text_witness :
    localizeField "title" (JSValue.str "<p>x</p>")
      = { enUS := JSValue.str "<p>x</p>" } ∧
    localizeField "title" (JSValue.obj [("rendered", JSValue.str "<b>t</b>")])
      = { enUS := JSValue.str "<b>t</b>" } := by
  refine ⟨title_field_never_rich_text.2.1 "<p>x</p>", ?_⟩
  rw [title_field_never_rich_text.2.2.1
    [("rendered", JSValue.str "<b>t</b>")] "<b>t</b>" rfl]
  rfl

/-- C9: `localizeField` is total — for every key and value it returns a
`LocalizedContent` carrying exactly the single "en-US" locale key (the
structure type has that one field) — and every value that is not a string,
not a number and not an object with a `rendered` property is passed through
unchanged as the locale value. -/
theorem localize_field_total_pass_through :
    (∀ (key : String) (v : JSValue), ∃ w, localizeField key v = { enUS := w }) ∧
    (∀ (key : String) (v : JSValue),
        isStrVal v = false → isNumVal v = false → hasRendered v = false →
        localizeField key v = { enUS := v }) := by
  constructor
  · intro key v; exact ⟨(localizeField key v).enUS, rfl⟩
  · intro key v hs hn hr
    have hren : getRendered v = JSValue.undefined := by
      cases v with
      | obj props =>
          simp only [hasRendered, Option.isSome] at hr
          simp only [getRendered]
          cases hfind : props.find? (fun p => p.fst = "rendered") with
          | none => rfl
          | some p => rw [hfind] at hr; simp at hr
      | str s => simp [isStrVal] at hs
      | _ => rfl
    have hfall : localizeFallback v = v := by
      cases v with
      | str s => simp [isStrVal] at hs
      | num n => simp [isNumVal] at hn
      | _ => simp_all [localizeFallback, jsOr, jsTruthy]
    have hhtml : isHtmlStr v = false := by
      cases v with
      | str s => simp [isStrVal] at hs
      | _ => rfl
    by_cases hk : key = "title"
    · simp [localizeField, hk, hfall]
    · have h1 : isHtmlStr (getRendered v) = false := by rw [hren]; rfl
      simp [localizeField, hk, hhtml, h1, hfall]

/-- C9 witness: `null` under the key "body" passes through unchanged. -/
theorem localize_field_total_pass_through_witness :
    localizeField "body" JSValue.null = { enUS := JSValue.null } :=
  localize_field_total_pass_through.2 "body" JSValue.null rfl rfl rfl

/-- C8: under every key other than "title", a string value with no HTML
tag pattern comes back as itself (its own string coercion), and a number
value comes back as its decimal string coercion. -/
theorem non_title_plain_string_coercion :
    (∀ (key : String) (s : String), key ≠ "title" → containsHtmlTag s = false →
        localizeField key (JSValue.str s) = { enUS := JSValue.str s }) ∧
    (∀ (key : String) (n : Int), key ≠ "title" →
        localizeField key (JSValue.num n) = { enUS := JSValue.str (toString n) }) := by
  constructor
  · intro key s hk hs
    simp [localizeField, hk, isHtmlStr, hs, getRendered, localizeFallback]
  · intro key n hk
    simp [localizeField, hk, isHtmlStr, getRendered, localizeFallback]

/-- C8 witness: the key "content" with the plain string "hello" and the
number 42. -/
theorem non_title_plain_string_coercion_witness :
    localizeField "content" (JSValue.str "hello") = { enUS := JSValue.str "hello" } ∧
    localizeField "content" (JSValue.num 42) = { enUS := JSValue.str "42" } :=
  ⟨non_title_plain_string_coercion.1 "content" "hello" (by decide) rfl,
   non_title_plain_string_coercion.2 "content" 42 (by decide)⟩

/-- C5 counterexample: with the non-title key "content" and the value
`{ rendered: "" }` (whose `rendered` is a non-HTML string but falsy), the
locale value is the whole object, not the `rendered` string — the source
computes `field?.rendered || field` and the empty string is falsy. -/
theorem rendered_falsy_not_used :
    localizeField "content" (JSValue.obj [("rendered", JSValue.str "")])
      = { enUS := JSValue.obj [("rendered", JSValue.str "")] } ∧
    JSValue.obj [("rendered", JSValue.str "")] ≠ JSValue.str "" := by
  exact ⟨rfl, by simp⟩

/-- C5 amended: for a non-title key and an object value whose `rendered`
property is not an HTML-bearing string, the locale value is `rendered` when
`rendered` is truthy, and the whole object when `rendered` is falsy (such
as the empty string). -/
theorem rendered_used_only_when_truthy (key : String) (props : List (String × JSValue))
    (r : JSValue) (hk : key ≠ "title")
    (hr : getRendered (JSValue.obj props) = r) (hh : isHtmlStr r = false) :
    localizeField key (JSValue.obj props)
      = { enUS := if jsTruthy r then r else JSValue.obj props } := by
  have h0 : isHtmlStr (JSValue.obj props) = false := rfl
  simp [localizeField, hk, h0, hr, hh, localizeFallback, jsOr]

/-- C5 amended witness: `{ rendered: "plain" }` under the key "content"
localizes to the truthy rendered string "plain". -/
theorem rendered_used_only_when_truthy_witness :
    localizeField "content" (JSValue.obj [("rendered", JSValue.str "plain")])
      = { enUS := JSValue.str "plain" } := by
  have h := rendered_used_only_when_truthy "content"
    [("rendered", JSValue.str "plain")] (JSValue.str "plain")
    (by decide) rfl rfl
  simpa [jsTruthy] using h

/-- C3: the inline-extraction routine scans only the direct child nodes of
an element: an element (non-text) child contributes nothing, whatever text
it nests; a direct text-node child is trimmed and emitted with empty marks
exactly when the trimmed value is non-empty; and every emitted inline node
is the trim of some direct text-node child, non-empty, with empty marks. -/
theorem inline_scan_direct_text_only :
    (∀ (pre post : List HtmlNode) (tag : String) (attrs : List (String × String))
        (cs : List HtmlNode),
        processTextContent (pre ++ HtmlNode.elem tag attrs cs :: post)
          = processTextContent (pre ++ post)) ∧
    (∀ s : String, processTextContent [HtmlNode.text s]
          = if jsTrim s ≠ "" then [createTextNode (jsTrim s) []] else []) ∧
    (∀ (ns : List HtmlNode) (n : RTNode), n ∈ processTextContent ns →
        ∃ s, HtmlNode.text s ∈ ns ∧ jsTrim s ≠ "" ∧
          n = RTNode.text (jsTrim s) [] NodeData.empty) := by
  refine ⟨?_, ?_, ?_⟩
  · intro pre post tag attrs cs
    induction pre with
    | nil => simp [processTextContent]
    | cons hd tl ih =>
        cases hd with
        | text s =>
            simp only [List.cons_append, processTextContent, List.append_eq]
            split <;> rw [ih]
        | elem t a c => simpa [processTextContent] using ih
  · intro s
    by_cases h : jsTrim s = "" <;> simp [processTextContent, h]
  · intro ns
    induction ns with
    | nil => intro n h; simp [processTextContent] at h
    | cons hd tl ih =>
        intro n h
        cases hd with
        | text s =>
            simp only [processTextContent] at h
            by_cases ht : jsTrim s = ""
            · rw [if_neg (by simp [ht])] at h
              obtain ⟨s', hmem, hne, heq⟩ := ih n h
              exact ⟨s', List.mem_cons_of_mem _ hmem, hne, heq⟩
            · rw [if_pos (by simp [ht])] at h
              rcases List.mem_cons.mp h with heq | hmem
              · exact ⟨s, List.mem_cons_self _ _, ht, heq⟩
              · obtain ⟨s', hmem', hne, heq⟩ := ih n hmem
                exact ⟨s', List.mem_cons_of_mem _ hmem', hne, heq⟩
        | elem t a c =>
            simp only [processTextContent] at h
            obtain ⟨s', hmem, hne, heq⟩ := ih n h
            exact ⟨s', List.mem_cons_of_mem _ hmem, hne, heq⟩

/-- C3 witness: a bold element child nesting the text "x" contributes no
inline node, a text child " a " is trimmed to "a", and the whitespace-only
text child "  " is dropped. -/
theorem inline_scan_direct_text_only_witness :
    processTextContent
        [HtmlNode.elem "b" [] [HtmlNode.text "x"], HtmlNode.text " a "]
      = processTextContent [HtmlNode.text " a "] ∧
    processTextContent [HtmlNode.text " a "] = [createTextNode "a" []] ∧
    processTextContent [HtmlNode.text "  "] = [] ∧
    (∃ s, HtmlNode.text s ∈ [HtmlNode.text " a "] ∧ jsTrim s ≠ "" ∧
      RTNode.text "a" [] NodeData.empty = RTNode.text (jsTrim s) [] NodeData.empty) := by
  refine ⟨inline_scan_direct_text_only.1 [] [HtmlNode.text " a "] "b" [] [HtmlNode.text "x"],
    ?_, ?_, ?_⟩
  · rw [inline_scan_direct_text_only.2.1 " a "]; rfl
  · rw [inline_scan_direct_text_only.2.1 "  "]; rfl
  · exact inline_scan_direct_text_only.2.2 [HtmlNode.text " a "]
      (RTNode.text "a" [] NodeData.empty) (List.Mem.head _)

/-- C4: the top-level walk maps every element child of the body to exactly
one block node, in document order: `processElement` is total on elements
(it never yields `none`), the walk produces one block per element child
and distributes over concatenation, the dispatch follows the tag table
(p, h1-h6, ul, ol, li, blockquote, hr, a, img, case-insensitively), every
unrecognized tag falls back to a paragraph carrying the element's text,
and concretely `htmlToRichText "<div>orphan</div>"` is one paragraph block
with the text "orphan". -/
theorem top_level_walk_exactly_one_block :
    (∀ (tag : String) (attrs : List (String × String)) (cs : List HtmlNode),
        ∃ b, processElement (HtmlNode.elem tag attrs cs) = some b) ∧
    (∀ ns : List HtmlNode, (walkBlocks ns).length = (ns.filter isElem).length) ∧
    (∀ ns ms : List HtmlNode, walkBlocks (ns ++ ms) = walkBlocks ns ++ walkBlocks ms) ∧
    (∀ (attrs : List (String × String)) (cs : List HtmlNode),
        processElement (HtmlNode.elem "p" attrs cs)
            = some (createParagraphNode (HtmlNode.elem "p" attrs cs)) ∧
        processElement (HtmlNode.elem "h1" attrs cs)
            = some (createHeadingNode (HtmlNode.elem "h1" attrs cs) "heading-1") ∧
        processElement (HtmlNode.elem "h2" attrs cs)
            = some (createHeadingNode (HtmlNode.elem "h2" attrs cs) "heading-2") ∧
        processElement (HtmlNode.elem "h3" attrs cs)
            = some (createHeadingNode (HtmlNode.elem "h3" attrs cs) "heading-3") ∧
        processElement (HtmlNode.elem "h4" attrs cs)
            = some (createHeadingNode (HtmlNode.elem "h4" attrs cs) "heading-4") ∧
        processElement (HtmlNode.elem "h5" attrs cs)
            = some (createHeadingNode (HtmlNode.elem "h5" attrs cs) "heading-5") ∧
        processElement (HtmlNode.elem "h6" attrs cs)
            = some (createHeadingNode (HtmlNode.elem "h6" attrs cs) "heading-6") ∧
        processElement (HtmlNode.elem "ul" attrs cs)
            = some (createListNode (HtmlNode.elem "ul" attrs cs) "unordered-list") ∧
        processElement (HtmlNode.elem "ol" attrs cs)
            = some (createListNode (HtmlNode.elem "ol" attrs cs) "ordered-list") ∧
        processElement (HtmlNode.elem "li" attrs cs)
            = some (createListItemNode (HtmlNode.elem "li" attrs cs)) ∧
        processElement (HtmlNode.elem "blockquote" attrs cs)
            = some (createBlockquoteNode (HtmlNode.elem "blockquote" attrs cs)) ∧
        processElement (HtmlNode.elem "hr" attrs cs)
            = some (RTNode.node "hr" NodeData.empty []) ∧
        processElement (HtmlNode.elem "a" attrs cs)
            = some (createHyperlinkInBlockNode (HtmlNode.elem "a" attrs cs)) ∧
        processElement (HtmlNode.elem "img" attrs cs)
            = some (createEmbeddedAssetNode (HtmlNode.elem "img" attrs cs))) ∧
    (∀ (tag : String) (attrs : List (String × String)) (cs : List HtmlNode),
        jsToLower tag ∉ recognizedTags →
        processElement (HtmlNode.elem tag attrs cs)
            = some (createParagraphNode (HtmlNode.elem tag attrs cs))) ∧
    htmlToRichText "<div>orphan</div>"
        = { nodeType := "document", data := NodeData.empty,
            content := [RTNode.node "paragraph" NodeData.empty
                          [RTNode.text "orphan" [] NodeData.empty]] } := by
  refine ⟨?_, ?_, ?_, ?_, ?_, ?_⟩
  · intro tag attrs cs; exact ⟨_, rfl⟩
  · intro ns
    induction ns with
    | nil => rfl
    | cons hd tl ih =>
        cases hd with
        | text s => simpa [walkBlocks, List.filter, isElem] using ih
        | elem t a c =>
            simp only [walkBlocks, List.filter, isElem] at ih ⊢
            simp [processElement, List.filterMap_cons, ih]
  · intro ns ms
    simp [walkBlocks, List.filter_append, List.filterMap_append]
  · intro attrs cs
    refine ⟨rfl, rfl, rfl, rfl, rfl, rfl, rfl, rfl, rfl, rfl, rfl, rfl, rfl, rfl⟩
  · intro tag attrs cs h
    simp only [recognizedTags, List.mem_cons, List.not_mem_nil, or_false] at h
    push_neg at h
    obtain ⟨h1, h2, h3, h4, h5, h6, h7, h8, h9, h10, h11, h12, h13, h14⟩ := h
    simp [processElement, h1, h2, h3, h4, h5, h6, h7, h8, h9, h10, h11, h12, h13, h14]
  · rfl

/-- C4 witness: the unrecognized tag "div" (with no attributes and a text
child) falls back to a paragraph carrying the text. -/
theorem top_level_walk_exactly_one_block_witness :
    processElement (HtmlNode.elem "div" [] [HtmlNode.text "orphan"])
      = some (createParagraphNode (HtmlNode.elem "div" [] [HtmlNode.text "orphan"])) :=
  top_level_walk_exactly_one_block.2.2.2.2.1 "div" [] [HtmlNode.text "orphan"]
    (by decide)

/-- C2: for every input string, the document produced by `htmlToRichText`
has non-empty content, and whenever the top-level walk over the parsed
body children produces zero blocks the content is exactly one empty
paragraph block. -/
theorem document_content_never_empty (html : String) :
    (htmlToRichText html).content ≠ [] ∧
    (walkBlocks (parseHtml (stripTags html)) = [] →
      (htmlToRichText html).content = [emptyParagraph]) := by
  by_cases h : walkBlocks (parseHtml (stripTags html)) = []
  · constructor
    · simp [htmlToRichText, h]
    · intro _; simp [htmlToRichText, h]
  · have hlen : (walkBlocks (parseHtml (stripTags html))).length ≠ 0 := by
      simpa [List.length_eq_zero] using h
    constructor
    · simp [htmlToRichText, hlen, h]
    · intro hcontra; exact absurd hcontra h

/-- C2 witness: the empty input string yields zero top-level blocks and
the document holds exactly one empty paragraph. -/
theorem document_content_never_empty_witness :
    (htmlToRichText "").content ≠ [] ∧
    (htmlToRichText "").content = [emptyParagraph] :=
  ⟨(document_content_never_empty "").1, (document_content_never_empty "").2 rfl⟩

/-- C7: a `ul` (resp. `ol`) element becomes a list block whose content is
exactly one list item per direct `li` child, in order — non-`li` children
contribute nothing wherever they sit, so `li` descendants that are not
direct children are skipped — and every produced list item holds exactly
one paragraph built from the direct text runs of its `li`; concretely
`"<ul><li>A</li><li>B</li></ul>"` gives one unordered list with the two
expected items. -/
theorem list_conversion_direct_li_only :
    (∀ (attrs : List (String × String)) (cs : List HtmlNode),
        processElement (HtmlNode.elem "ul" attrs cs)
          = some (RTNode.node "unordered-list" NodeData.empty
              ((cs.filter isLiElem).map createListItemNode))) ∧
    (∀ (attrs : List (String × String)) (cs : List HtmlNode),
        processElement (HtmlNode.elem "ol" attrs cs)
          = some (RTNode.node "ordered-list" NodeData.empty
              ((cs.filter isLiElem).map createListItemNode))) ∧
    (∀ c : HtmlNode, isLiElem c = false → ∀ pre post : List HtmlNode,
        ((pre ++ c :: post).filter isLiElem).map createListItemNode
          = ((pre ++ post).filter isLiElem).map createListItemNode) ∧
    (∀ el : HtmlNode, createListItemNode el
        = RTNode.node "list-item" NodeData.empty
            [RTNode.node "paragraph" NodeData.empty
              (processTextContent (childrenOf el))]) ∧
    htmlToRichText "<ul><li>A</li><li>B</li></ul>"
      = { nodeType := "document", data := NodeData.empty,
          content := [RTNode.node "unordered-list" NodeData.empty
            [RTNode.node "list-item" NodeData.empty
              [RTNode.node "paragraph" NodeData.empty
                [RTNode.text "A" [] NodeData.empty]],
             RTNode.node "list-item" NodeData.empty
              [RTNode.node "paragraph" NodeData.empty
                [RTNode.text "B" [] NodeData.empty]]]] } := by
  refine ⟨fun _ _ => rfl, fun _ _ => rfl, ?_, fun _ => rfl, rfl⟩
  intro c hc pre post
  simp [List.filter_append, List.filter_cons, hc]

/-- C7 witness: a `ul` whose children are a text run, a nested `div`
holding an `li`, and one direct `li` produces exactly one list item, the
one for the direct `li`. -/
theorem list_conversion_direct_li_only_witness :
    processElement (HtmlNode.elem "ul" []
        [HtmlNode.text "x",
         HtmlNode.elem "div" [] [HtmlNode.elem "li" [] [HtmlNode.text "deep"]],
         HtmlNode.elem "li" [] [HtmlNode.text "A"]])
      = some (RTNode.node "unordered-list" NodeData.empty
          [createListItemNode (HtmlNode.elem "li" [] [HtmlNode.text "A"])]) ∧
    (([HtmlNode.text "x"] ++ HtmlNode.elem "div" [] [] :: []).filter isLiElem).map
        createListItemNode
      = (([HtmlNode.text "x"] ++ []).filter isLiElem).map createListItemNode := by
  constructor
  · rw [list_conversion_direct_li_only.1 []
      [HtmlNode.text "x",
       HtmlNode.elem "div" [] [HtmlNode.elem "li" [] [HtmlNode.text "deep"]],
       HtmlNode.elem "li" [] [HtmlNode.text "A"]]]
    rfl
  · exact list_conversion_direct_li_only.2.2.1 (HtmlNode.elem "div" [] []) rfl
      [HtmlNode.text "x"] []

/-- C10: the non-empty guarantee is only document-level — individual
blocks can carry empty content and no empty paragraph is synthesized for
them: a `ul` with no direct `li` child yields an unordered list with empty
content, `"<ul></ul>"` converts to a document whose sole block is that
empty list, and `"<p></p>"` converts to a document whose sole block is a
paragraph with zero inline children. -/
theorem empty_blocks_not_padded :
    (∀ (attrs : List (String × String)) (cs : List HtmlNode),
        cs.filter isLiElem = [] →
        processElement (HtmlNode.elem "ul" attrs cs)
          = some (RTNode.node "unordered-list" NodeData.empty [])) ∧
    htmlToRichText "<ul></ul>"
      = { nodeType := "document", data := NodeData.empty,
          content := [RTNode.node "unordered-list" NodeData.empty []] } ∧
    htmlToRichText "<p></p>"
      = { nodeType := "document", data := NodeData.empty,
          content := [RTNode.node "paragraph" NodeData.empty []] } := by
  refine ⟨?_, rfl, rfl⟩
  intro attrs cs h
  have h0 : processElement (HtmlNode.elem "ul" attrs cs)
      = some (RTNode.node "unordered-list" NodeData.empty
          ((cs.filter isLiElem).map createListItemNode)) := rfl
  rw [h0, h]
  rfl

/-- C10 witness: a `ul` whose only child is a nested `div` (no direct
`li`) produces an unordered list with empty content. -/
theorem empty_blocks_not_padded_witness :
    processElement (HtmlNode.elem "ul" [] [HtmlNode.elem "div" [] []])
      = some (RTNode.node "unordered-list" NodeData.empty []) :=
  empty_blocks_not_padded.1 [] [HtmlNode.elem "div" [] []] rfl

/-- Helper: whenever the fetch loop returns a parsed JSON value, some
attempt in range received an ok-status response whose body parses to that
value. -/
theorem dfLoop_success_has_ok_response {α : Type} (fetchO : Nat → FetchOutcome)
    (parse : String → Option α) (url : String) (retries : Nat) :
    ∀ (gas attempt : Nat) (j : α) (ds : List Nat),
      dfLoop fetchO parse url retries gas attempt = (Except.ok (some j), ds) →
      ∃ a, attempt ≤ a ∧ a < retries ∧ ∃ st body,
        fetchO a = FetchOutcome.resp st body ∧ isOkStatus st = true ∧
        parse body = some j := by
  intro gas
  induction gas with
  | zero => intro attempt j ds h; simp [dfLoop] at h
  | succ gas ih =>
      intro attempt j ds h
      simp only [dfLoop] at h
      split at h
      · rename_i hlt
        split at h
        · rename_i msg heq
          split at h
          · simp at h
          · rename_i hlast
            obtain ⟨a, ha1, ha2, rest⟩ := ih (attempt + 1) j ds h
            exact ⟨a, by omega, ha2, rest⟩
        · rename_i st body heq
          split at h
          · rename_i hok
            split at h
            · rename_i v hp
              simp only [Prod.mk.injEq, Except.ok.injEq, Option.some.injEq] at h
              exact ⟨attempt, Nat.le_refl _, hlt, st, body, heq, hok,
                by rw [hp, h.1]⟩
            · rename_i hp
              split at h
              · simp at h
              · obtain ⟨a, ha1, ha2, rest⟩ := ih (attempt + 1) j ds h
                exact ⟨a, by omega, ha2, rest⟩
          · rename_i hok
            split at h
            · rename_i h503
              have h1 := congrArg Prod.fst h
              simp only at h1
              have h2 : dfLoop fetchO parse url retries gas (attempt + 1)
                  = (Except.ok (some j),
                     (dfLoop fetchO parse url retries gas (attempt + 1)).snd) := by
                rw [← h1]
              obtain ⟨a, ha1, ha2, rest⟩ := ih (attempt + 1) j _ h2
              exact ⟨a, by omega, ha2, rest⟩
            · split at h
              · simp at h
              · obtain ⟨a, ha1, ha2, rest⟩ := ih (attempt + 1) j ds h
                exact ⟨a, by omega, ha2, rest⟩
      · simp at h

/-- Helper: when every attempt in the budget answers 503, the loop slept
the full exponential backoff schedule and then returned the implicit
`undefined` (the while condition failed without any throw). -/
theorem dfLoop_all_503_returns_none {α : Type} (fetchO : Nat → FetchOutcome)
    (parse : String → Option α) (url : String) (retries : Nat) :
    ∀ (gas attempt : Nat), gas = retries - attempt →
      (∀ a, attempt ≤ a → a < retries → ∃ b, fetchO a = FetchOutcome.resp 503 b) →
      dfLoop fetchO parse url retries gas attempt
        = (Except.ok none, (List.range' attempt gas).map (fun a => 2 ^ a * 1000)) := by
  intro gas
  induction gas with
  | zero => intro attempt hgas hall; simp [dfLoop, List.range']
  | succ gas ih =>
      intro attempt hgas hall
      have hlt : attempt < retries := by omega
      obtain ⟨b, hb⟩ := hall attempt (Nat.le_refl _) hlt
      have hok : isOkStatus 503 = false := rfl
      simp only [dfLoop, hlt, if_true, hb, hok, Bool.false_eq_true, if_false,
        if_pos rfl]
      rw [ih (attempt + 1) (by omega)
        (fun a ha1 ha2 => hall a (by omega) ha2)]
      simp [List.range'_succ]

/-- C6 counterexample: with a service answering 503 on every attempt and
the default budget of 5 retries, `dataFetcher` slept the five backoff
delays and then returned `undefined` successfully — no error was raised
and no parsed JSON was produced; and with a 404 on the first attempt
followed by a parsable 200, it returned the parsed JSON instead of
failing on the non-503 error status. -/
theorem retry_budget_exhaustion_no_error :
    dataFetcher (fun _ => FetchOutcome.resp 503 "") (fun _ => (none : Option Nat))
        "https://example.com" 5
      = (Except.ok none, [1000, 2000, 4000, 8000, 16000]) ∧
    dataFetcher
        (fun a => if a = 0 then FetchOutcome.resp 404 ""
                  else FetchOutcome.resp 200 "[1]")
        (fun b => if b = "[1]" then some 1 else (none : Option Nat))
        "https://example.com" 5
      = (Except.ok (some 1), []) :=
  ⟨rfl, rfl⟩

/-- C6 amended: `dataFetcher` returns parsed JSON only when some attempt
got an ok-status response whose body parses; every 503 is retried after a
`2 ^ attempt`-second backoff, and a budget exhausted by 503 responses ends
with the implicit `undefined` return, not an error; a non-503 error status
does not fail the call immediately — it is caught and retried without
backoff — and only when it happens on the final attempt does the call
raise "Max retries reached" surfacing that last error. -/
theorem data_fetcher_retry_semantics :
    (∀ (α : Type) (fetchO : Nat → FetchOutcome) (parse : String → Option α)
        (url : String) (retries : Nat) (j : α) (ds : List Nat),
        dataFetcher fetchO parse url retries = (Except.ok (some j), ds) →
        ∃ a, a < retries ∧ ∃ st body, fetchO a = FetchOutcome.resp st body ∧
          isOkStatus st = true ∧ parse body = some j) ∧
    (∀ (α : Type) (fetchO : Nat → FetchOutcome) (parse : String → Option α)
        (url : String) (retries : Nat),
        (∀ a, a < retries → ∃ b, fetchO a = FetchOutcome.resp 503 b) →
        dataFetcher fetchO parse url retries
          = (Except.ok none, (List.range retries).map (fun a => 2 ^ a * 1000))) ∧
    (∀ (α : Type) (fetchO : Nat → FetchOutcome) (parse : String → Option α)
        (url : String) (st : Nat) (body : String),
        fetchO 0 = FetchOutcome.resp st body → isOkStatus st = false → st ≠ 503 →
        dataFetcher fetchO parse url 1
          = (Except.error (maxRetriesMsg url (statusErrMsg url st)), [])) ∧
    (∀ (α : Type) (fetchO : Nat → FetchOutcome) (parse : String → Option α)
        (url : String) (retries st : Nat) (body : String) (attempt gas : Nat),
        fetchO attempt = FetchOutcome.resp st body → isOkStatus st = false →
        st ≠ 503 → attempt + 1 < retries →
        dfLoop fetchO parse url retries (gas + 1) attempt
          = dfLoop fetchO parse url retries gas (attempt + 1)) := by
  refine ⟨?_, ?_, ?_, ?_⟩
  · intro α fetchO parse url retries j ds h
    obtain ⟨a, _, ha2, rest⟩ :=
      dfLoop_success_has_ok_response fetchO parse url retries retries 0 j ds h
    exact ⟨a, ha2, rest⟩
  · intro α fetchO parse url retries hall
    have h := dfLoop_all_503_returns_none fetchO parse url retries retries 0
      (by omega) (fun a _ ha2 => hall a ha2)
    rw [dataFetcher, h, List.range_eq_range']
  · intro α fetchO parse url st body hf hok h503
    simp [dataFetcher, dfLoop, hf, hok, h503]
  · intro α fetchO parse url retries st body attempt gas hf hok h503 hlt
    have h1 : attempt < retries := by omega
    have h2 : ¬ attempt = retries - 1 := by omega
    simp [dfLoop, h1, hf, hok, h503, h2]

/-- C6 amended witness: three 503 responses under a budget of 3 yield the
undefined return with backoff trace 1000, 2000, 4000 ms, and a single 404
under a budget of 1 raises the max-retries error surfacing the status
message. -/
theorem data_fetcher_retry_semantics_witness :
    dataFetcher (fun _ => FetchOutcome.resp 503 "x") (fun _ => (none : Option Nat))
        "https://u" 3
      = (Except.ok none, [1000, 2000, 4000]) ∧
    dataFetcher (fun _ => FetchOutcome.resp 404 "x") (fun _ => (none : Option Nat))
        "https://u" 1
      = (Except.error (maxRetriesMsg "https://u" (statusErrMsg "https://u" 404)), []) := by
  constructor
  · have h := data_fetcher_retry_semantics.2.1 Nat
      (fun _ => FetchOutcome.resp 503 "x") (fun _ => (none : Option Nat))
      "https://u" 3 (fun a _ => ⟨"x", rfl⟩)
    exact h.trans rfl
  · exact data_fetcher_retry_semantics.2.2.1 Nat
      (fun _ => FetchOutcome.resp 404 "x") (fun _ => (none : Option Nat))
      "https://u" 404 "x" rfl rfl (by omega)

end RRMigration
